import Mathlib

/-!
Verification of the argument-recognition-and-translation layer of a
wasm-optimizer integration crate.  The central function embedded here is
`parse_command_args` (source: `src/components/wasm-opt/src/integration.rs`),
a single-pass scanner over a command's argument list that produces either a
fully populated invocation plan or a structured error.
-/

namespace WasmOpt

/-- A command-line argument token.  The source receives `&OsStr` tokens: a
token is either valid unicode text (the `to_str` succeeds) or raw
non-unicode bytes (`to_str` fails). -/
inductive Arg where
  | text (s : String)
  | bytes (b : List Nat)
deriving DecidableEq, Repr

/-- Modelled from the spec: the writer's output file type (binary wasm vs
text).  The `FileType` enum of the api module is not under `src/`; the spec
describes the options model as covering "output file type (binary vs text)". -/
inductive FileType where
  | binary
  | wat
deriving DecidableEq, Repr

/-- Modelled from the spec: the pass selection of the options model; the
profiles set "the set of passes to run".  The pass list type itself is not
under `src/`. -/
inductive Passes where
  | defaults
  | explicitList (names : List String)
deriving DecidableEq, Repr

/-- Modelled from the spec: `OptimizationOptions`, "a mutable configuration
record covering output file type (binary vs text), optimization/shrink
levels, and pass lists"; the api module is not under `src/`. -/
structure OptionsModel where
  writerFileType : FileType
  optimizeLevel : Nat
  shrinkLevel : Nat
  passes : Passes
deriving DecidableEq, Repr

/-- Modelled from the spec: the default-constructed `OptimizationOptions`
(`OptimizationOptions::default()` in the source; the api module is not under
`src/`). -/
def default_options : OptionsModel :=
  { writerFileType := .binary, optimizeLevel := 0, shrinkLevel := 0, passes := .defaults }

/-- Modelled from the spec: a `Profile` is "an immutable named bundle of
option mutations"; `apply_to` "mutates specific fields (optimize level,
shrink level, and the set of passes to run)".  The profiles module is not
under `src/`, so a profile is embedded as the record of the three fields it
sets. -/
structure Profile where
  optimizeLevel : Nat
  shrinkLevel : Nat
  passes : Passes
deriving DecidableEq, Repr

/-- Modelled from the spec: applying a profile overwrites the fields the
profile sets, leaving the rest of the options model unchanged. -/
def Profile.apply_to_opts (p : Profile) (o : OptionsModel) : OptionsModel :=
  { o with optimizeLevel := p.optimizeLevel,
           shrinkLevel := p.shrinkLevel,
           passes := p.passes }

/-- Modelled from the spec: the `-O` default profile. -/
def Profile.default : Profile := ⟨2, 1, .defaults⟩

/-- Modelled from the spec: the `-O0` profile. -/
def Profile.opt_level_0 : Profile := ⟨0, 0, .defaults⟩

/-- Modelled from the spec: the `-O1` profile. -/
def Profile.opt_level_1 : Profile := ⟨1, 0, .defaults⟩

/-- Modelled from the spec: the `-O2` profile. -/
def Profile.opt_level_2 : Profile := ⟨2, 0, .defaults⟩

/-- Modelled from the spec: the `-O3` profile. -/
def Profile.opt_level_3 : Profile := ⟨3, 0, .defaults⟩

/-- Modelled from the spec: the `-O4` profile. -/
def Profile.opt_level_4 : Profile := ⟨4, 0, .defaults⟩

/-- Modelled from the spec: the `-Os` profile. -/
def Profile.optimize_for_size : Profile := ⟨2, 1, .defaults⟩

/-- Modelled from the spec: the `-Oz` profile. -/
def Profile.optimize_for_size_aggressively : Profile := ⟨2, 2, .defaults⟩

/-- The mutable local state of `parse_command_args` during the scan loop
(`integration.rs` lines 88-97): the options being built, the four path
slots, and the accumulated unsupported tokens. -/
structure ScanState where
  opts : OptionsModel
  input_file : Option Arg
  input_sourcemap : Option Arg
  output_file : Option Arg
  output_sourcemap : Option Arg
  unsupported : List Arg
deriving DecidableEq, Repr

/-- The initial scan state of `parse_command_args`: default options, all
slots empty, no unsupported tokens. -/
def initState : ScanState :=
  { opts := default_options, input_file := none, input_sourcemap := none,
    output_file := none, output_sourcemap := none, unsupported := [] }

/-- `parse_infile_path` (`integration.rs` lines 246-256): bind the token as
the input file if that slot is empty, otherwise push it onto `unsupported`. -/
def parse_infile_path (arg : Arg) (st : ScanState) : ScanState :=
  match st.input_file with
  | none => { st with input_file := some arg }
  | some _ => { st with unsupported := st.unsupported ++ [arg] }

/-- The three single-valued path slots of the plan: `--output`/`-o`,
`--input-source-map`/`-ism`, `--output-source-map`/`-osm`. -/
inductive SlotId where
  | output
  | ism
  | osm
deriving DecidableEq, Repr

/-- Read a path slot of the scan state. -/
def slotGet : SlotId → ScanState → Option Arg
  | .output, st => st.output_file
  | .ism, st => st.input_sourcemap
  | .osm, st => st.output_sourcemap

/-- Overwrite a path slot of the scan state. -/
def slotSet : SlotId → Arg → ScanState → ScanState
  | .output, v, st => { st with output_file := some v }
  | .ism, v, st => { st with input_sourcemap := some v }
  | .osm, v, st => { st with output_sourcemap := some v }

/-- The slot-updating half of `parse_path_into` (`integration.rs` lines
258-274), applied to the already-consumed next token `v`: if the slot is
empty bind `v` to it, otherwise push `v` onto `unsupported` (the consumed
value, not the flag spelling, is what the source pushes). -/
def bindSlot (slot : SlotId) (v : Arg) (st : ScanState) : ScanState :=
  match slotGet slot st with
  | none => slotSet slot v st
  | some _ => { st with unsupported := st.unsupported ++ [v] }

/-- The spellings the source matches and answers with `todo!()`
(`integration.rs` lines 124-207): recognized by the flag table but
unimplemented; reaching one aborts via a panic. -/
def todoFlags : List String :=
  ["--output-source-map-url", "-osu",
   "--optimize-level", "-ol",
   "--shrink-level", "-s",
   "--debuginfo", "-g",
   "--always-inline-max-function-size", "-aimfs",
   "--flexible-inline-max-function-size", "-fimfs",
   "--one-caller-inline-max-function-size", "-ocifms",
   "--inline-functions-with-loops", "-ifwl",
   "--partial-inlining-ifs", "-pii",
   "--traps-never-happen", "-tnh",
   "--low-memory-unused", "-lmu",
   "--fast-math", "-ffm",
   "--zero-filled-memory", "-uim",
   "--mvp-features", "-mvp",
   "--all-features", "-all",
   "--no-validation", "-n",
   "--pass-arg", "-pa"]

/-- The profile selected by a profile flag spelling (`integration.rs` lines
130-153), `none` when the spelling is not a profile flag. -/
def profileFor (s : String) : Option Profile :=
  if s = "-O" then some Profile.default
  else if s = "-O0" then some Profile.opt_level_0
  else if s = "-O1" then some Profile.opt_level_1
  else if s = "-O2" then some Profile.opt_level_2
  else if s = "-O3" then some Profile.opt_level_3
  else if s = "-O4" then some Profile.opt_level_4
  else if s = "-Os" then some Profile.optimize_for_size
  else if s = "-Oz" then some Profile.optimize_for_size_aggressively
  else none

/-- How the scan loop dispatches one token it examines.  This is the `match
arg` of `parse_command_args` (`integration.rs` lines 99-217): a non-unicode
token goes straight to `parse_infile_path`; text is matched against the flag
table (the table's spellings are pairwise distinct, so the order of the
comparisons is immaterial); anything unmatched falls through to
`parse_infile_path`. -/
inductive TokenClass where
  | valueFlag (slot : SlotId)
  | emitText
  | profileFlag (p : Profile)
  | quiet
  | todoArm
  | positional
deriving DecidableEq, Repr

/-- Classify one token exactly as the `match arg` of `parse_command_args`
does. -/
def classify : Arg → TokenClass
  | .bytes _ => .positional
  | .text s =>
    if s = "--output" ∨ s = "-o" then .valueFlag .output
    else if s = "--emit-text" ∨ s = "-S" then .emitText
    else if s = "--input-source-map" ∨ s = "-ism" then .valueFlag .ism
    else if s = "--output-source-map" ∨ s = "-osm" then .valueFlag .osm
    else
      match profileFor s with
      | some p => .profileFlag p
      | none =>
        if s = "--quiet" ∨ s = "-q" then .quiet
        else if s ∈ todoFlags then .todoArm
        else .positional

/-- Outcome of the scan loop of `parse_command_args`: the loop either runs
off the end of the list normally (`done`), returns early with
`UnexpectedEndOfArgs` because a value-taking flag had no following token
(`endOfArgs`), or hits a `todo!()` arm and panics (`panic`). -/
inductive ScanResult where
  | panic
  | endOfArgs
  | done (st : ScanState)
deriving DecidableEq, Repr

/-- The `while let Some(arg) = args.next()` loop of `parse_command_args`
(`integration.rs` lines 99-218).  A value-taking flag consumes the next
token via `parse_path_into`; with no next token the loop returns
`Err(UnexpectedEndOfArgs)`. -/
def scanArgs : List Arg → ScanState → ScanResult
  | [], st => .done st
  | a :: rest, st =>
    match classify a with
    | .valueFlag slot =>
      match rest with
      | [] => .endOfArgs
      | v :: rest2 => scanArgs rest2 (bindSlot slot v st)
    | .emitText =>
      scanArgs rest { st with opts := { st.opts with writerFileType := .wat } }
    | .profileFlag p =>
      scanArgs rest { st with opts := p.apply_to_opts st.opts }
    | .quiet => scanArgs rest st
    | .todoArm => .panic
    | .positional => scanArgs rest (parse_infile_path a st)

/-- The error enum `Error` of the integration module, restricted to the
variants `parse_command_args` itself can produce. -/
inductive ParseError where
  | inputFileRequired
  | outputFileRequired
  | unexpectedEndOfArgs
  | unsupported (args : List Arg)
deriving DecidableEq, Repr

/-- `ParsedCliArgs` (`integration.rs` lines 78-84): the fully populated
invocation plan. -/
structure ParsedCliArgs where
  opts : OptionsModel
  input_file : Arg
  input_sourcemap : Option Arg
  output_file : Arg
  output_sourcemap : Option Arg
deriving DecidableEq, Repr

/-- What a call of `parse_command_args` can be observed to do: return a
plan, return an error, or abort in a `todo!()` panic. -/
inductive ParseOutcome where
  | panic
  | error (e : ParseError)
  | ok (p : ParsedCliArgs)
deriving DecidableEq, Repr

/-- The post-scan checks of `parse_command_args` (`integration.rs` lines
220-243), in source order: input file present (else `InputFileRequired`),
output file present (else `OutputFileRequired`), unsupported list empty
(else `Unsupported`), then build the plan. -/
def finishDone (st : ScanState) : ParseOutcome :=
  match st.input_file with
  | none => .error .inputFileRequired
  | some inf =>
    match st.output_file with
    | none => .error .outputFileRequired
    | some outf =>
      if st.unsupported.length > 0 then .error (.unsupported st.unsupported)
      else .ok { opts := st.opts, input_file := inf,
                 input_sourcemap := st.input_sourcemap,
                 output_file := outf,
                 output_sourcemap := st.output_sourcemap }

/-- Map the scan loop's outcome to the outcome of `parse_command_args`: an
early `Err(UnexpectedEndOfArgs)` return and a `todo!()` panic propagate, a
completed scan goes through the post-scan checks. -/
def finishScan : ScanResult → ParseOutcome
  | .panic => .panic
  | .endOfArgs => .error .unexpectedEndOfArgs
  | .done st => finishDone st

/-- `parse_command_args` (`integration.rs` lines 87-244) as a function of
the argument list: run the scan loop from the initial state, then the
post-scan checks. -/
def parse_command_args_list (args : List Arg) : ParseOutcome :=
  finishScan (scanArgs args initState)

/-- A pre-built command description (`std::process::Command`): a program
name, an ordered argument list, environment-variable settings and an
optional working directory.  `parse_command_args` reads only
`command.get_args()`. -/
structure Command where
  program : Arg
  args : List Arg
  envs : List (String × Option String)
  current_dir : Option Arg
deriving DecidableEq, Repr

/-- `parse_command_args` on a full command description: only the argument
list is consulted (`let mut args = command.get_args()`). -/
def parse_command_args (c : Command) : ParseOutcome :=
  parse_command_args_list c.args

end WasmOpt

/-! ## Scan-loop invariants -/

namespace WasmOpt

/-- Which tokens of an argument list the scan loop dispatches to
`parse_infile_path` as positional candidates, in order: a value-taking flag
swallows its following token, other recognized flags are skipped, a
`todo!()` arm stops the scan, and everything unmatched (or non-unicode) is a
positional candidate. -/
def positionals : List Arg → List Arg
  | [] => []
  | [a] =>
    match classify a with
    | .positional => [a]
    | _ => []
  | a :: v :: rest2 =>
    match classify a with
    | .valueFlag _ => positionals rest2
    | .emitText => positionals (v :: rest2)
    | .profileFlag _ => positionals (v :: rest2)
    | .quiet => positionals (v :: rest2)
    | .todoArm => []
    | .positional => a :: positionals (v :: rest2)

/-- The input-file slot after a completed scan: an already-bound slot is
kept, otherwise the first positional candidate (if any) fills it. -/
def inputAfter (i : Option Arg) (args : List Arg) : Option Arg :=
  match i with
  | some p => some p
  | none => (positionals args).head?

/-- The positional candidates that overflow into the unsupported list: all
of them when the input slot is already bound when the scan starts, all but
the first otherwise. -/
def posOverflow (i : Option Arg) (args : List Arg) : List Arg :=
  match i with
  | some _ => positionals args
  | none => (positionals args).tail

theorem bindSlot_input_file (slot : SlotId) (v : Arg) (st : ScanState) :
    (bindSlot slot v st).input_file = st.input_file := by
  unfold bindSlot
  cases h : slotGet slot st with
  | none => cases slot <;> rfl
  | some p => rfl

theorem bindSlot_unsupported (slot : SlotId) (v : Arg) (st : ScanState) :
    (bindSlot slot v st).unsupported = st.unsupported ∨
    (bindSlot slot v st).unsupported = st.unsupported ++ [v] := by
  unfold bindSlot
  cases h : slotGet slot st with
  | none => exact Or.inl (by cases slot <;> rfl)
  | some p => exact Or.inr rfl

theorem positionals_valueFlag (a v : Arg) (rest2 : List Arg) (slot : SlotId)
    (hc : classify a = .valueFlag slot) :
    positionals (a :: v :: rest2) = positionals rest2 := by
  simp [positionals, hc]

theorem positionals_pos (a : Arg) (rest : List Arg) (hc : classify a = .positional) :
    positionals (a :: rest) = a :: positionals rest := by
  cases rest <;> simp [positionals, hc]

theorem positionals_skip (a : Arg) (rest : List Arg)
    (hc : classify a = .emitText ∨ classify a = .quiet ∨ ∃ p, classify a = .profileFlag p) :
    positionals (a :: rest) = positionals rest := by
  rcases hc with h | h | ⟨p, h⟩ <;> cases rest <;> simp [positionals, h]

theorem inputAfter_congr (i : Option Arg) (args args2 : List Arg)
    (h : positionals args = positionals args2) :
    inputAfter i args = inputAfter i args2 := by
  cases i <;> simp [inputAfter, h]

theorem posOverflow_congr (i : Option Arg) (args args2 : List Arg)
    (h : positionals args = positionals args2) :
    posOverflow i args = posOverflow i args2 := by
  cases i <;> simp [posOverflow, h]

theorem scan_inv_nil (st st' : ScanState) (h : scanArgs [] st = .done st') :
    st'.input_file = inputAfter st.input_file [] ∧
    ∃ extra, st'.unsupported = st.unsupported ++ extra ∧
      (posOverflow st.input_file []).Sublist extra := by
  have h2 : ScanResult.done st = ScanResult.done st' := h
  injection h2 with h3
  subst h3
  refine ⟨?_, [], by simp, ?_⟩
  · cases hi : st.input_file <;> simp [inputAfter, positionals, hi]
  · cases hi : st.input_file <;> simp [posOverflow, positionals, hi]

theorem scan_inv_aux :
    ∀ (n : Nat) (args : List Arg), args.length ≤ n →
    ∀ (st st' : ScanState), scanArgs args st = .done st' →
    st'.input_file = inputAfter st.input_file args ∧
    ∃ extra, st'.unsupported = st.unsupported ++ extra ∧
      (posOverflow st.input_file args).Sublist extra := by
  intro n
  induction n with
  | zero =>
    intro args hlen st st' hscan
    have hargs : args = [] := List.eq_nil_of_length_eq_zero (Nat.le_zero.mp hlen)
    subst hargs
    exact scan_inv_nil st st' hscan
  | succ m ih =>
    intro args hlen st st' hscan
    cases args with
    | nil => exact scan_inv_nil st st' hscan
    | cons a rest =>
      have hrest : rest.length ≤ m := by
        simpa using Nat.lt_succ_iff.mp (by simpa using Nat.lt_of_lt_of_le (by simp) hlen)
      cases hc : classify a with
      | valueFlag slot =>
        cases rest with
        | nil => simp [scanArgs, hc] at hscan
        | cons v rest2 =>
          have h2 : rest2.length ≤ m := le_trans (by simp) hrest
          have hscan2 : scanArgs rest2 (bindSlot slot v st) = .done st' := by
            simpa [scanArgs, hc] using hscan
          obtain ⟨h1, extra, he, hsub⟩ := ih rest2 h2 _ st' hscan2
          rw [bindSlot_input_file] at h1 hsub
          have hpos := positionals_valueFlag a v rest2 slot hc
          refine ⟨by rw [h1, inputAfter_congr st.input_file _ _ hpos], ?_⟩
          rcases bindSlot_unsupported slot v st with hb | hb
          · exact ⟨extra, by rw [he, hb],
              by rw [posOverflow_congr st.input_file _ _ hpos]; exact hsub⟩
          · refine ⟨v :: extra, by rw [he, hb]; simp, ?_⟩
            rw [posOverflow_congr st.input_file _ _ hpos]
            exact hsub.cons v
      | emitText =>
        have hscan2 :
            scanArgs rest { st with opts := { st.opts with writerFileType := .wat } }
              = .done st' := by
          simpa [scanArgs, hc] using hscan
        obtain ⟨h1, extra, he, hsub⟩ := ih rest hrest _ st' hscan2
        have hpos := positionals_skip a rest (Or.inl hc)
        exact ⟨by rw [h1, inputAfter_congr st.input_file _ _ hpos],
          extra, he, by rw [posOverflow_congr st.input_file _ _ hpos]; exact hsub⟩
      | profileFlag p =>
        have hscan2 :
            scanArgs rest { st with opts := p.apply_to_opts st.opts } = .done st' := by
          simpa [scanArgs, hc] using hscan
        obtain ⟨h1, extra, he, hsub⟩ := ih rest hrest _ st' hscan2
        have hpos := positionals_skip a rest (Or.inr (Or.inr ⟨p, hc⟩))
        exact ⟨by rw [h1, inputAfter_congr st.input_file _ _ hpos],
          extra, he, by rw [posOverflow_congr st.input_file _ _ hpos]; exact hsub⟩
      | quiet =>
        have hscan2 : scanArgs rest st = .done st' := by
          simpa [scanArgs, hc] using hscan
        obtain ⟨h1, extra, he, hsub⟩ := ih rest hrest _ st' hscan2
        have hpos := positionals_skip a rest (Or.inr (Or.inl hc))
        exact ⟨by rw [h1, inputAfter_congr st.input_file _ _ hpos],
          extra, he, by rw [posOverflow_congr st.input_file _ _ hpos]; exact hsub⟩
      | todoArm => simp [scanArgs, hc] at hscan
      | positional =>
        have hscan2 : scanArgs rest (parse_infile_path a st) = .done st' := by
          simpa [scanArgs, hc] using hscan
        have hpos := positionals_pos a rest hc
        cases hi : st.input_file with
        | none =>
          have hp : parse_infile_path a st = { st with input_file := some a } := by
            simp [parse_infile_path, hi]
          rw [hp] at hscan2
          obtain ⟨h1, extra, he, hsub⟩ := ih rest hrest _ st' hscan2
          simp only [ScanState.input_file, ScanState.unsupported] at h1 he hsub
          refine ⟨?_, extra, he, ?_⟩
          · rw [h1]
            simp [inputAfter, hpos]
          · simp only [posOverflow, hpos, List.tail_cons]
            simpa [posOverflow] using hsub
        | some q =>
          have hp : parse_infile_path a st
              = { st with unsupported := st.unsupported ++ [a] } := by
            simp [parse_infile_path, hi]
          rw [hp] at hscan2
          obtain ⟨h1, extra, he, hsub⟩ := ih rest hrest _ st' hscan2
          simp only [ScanState.input_file, ScanState.unsupported] at h1 he hsub
          rw [hi] at h1 hsub
          refine ⟨by rw [h1]; simp [inputAfter], a :: extra, by rw [he]; simp, ?_⟩
          simp only [posOverflow, hpos]
          exact (by simpa [posOverflow] using hsub : (positionals rest).Sublist extra).cons₂ a

theorem scan_inv (args : List Arg) (st st' : ScanState)
    (h : scanArgs args st = .done st') :
    st'.input_file = inputAfter st.input_file args ∧
    ∃ extra, st'.unsupported = st.unsupported ++ extra ∧
      (posOverflow st.input_file args).Sublist extra :=
  scan_inv_aux args.length args le_rfl st st' h

end WasmOpt

/-! ## Post-scan checks -/

namespace WasmOpt

theorem parse_done_cases (args : List Arg) (st : ScanState)
    (hdone : scanArgs args initState = .done st) :
    (st.input_file = none → parse_command_args_list args = .error .inputFileRequired) ∧
    (∀ inf, st.input_file = some inf → st.output_file = none →
      parse_command_args_list args = .error .outputFileRequired) ∧
    (∀ l, parse_command_args_list args = .error (.unsupported l) →
      st.input_file ≠ none ∧ st.output_file ≠ none ∧ l = st.unsupported) := by
  have hp : parse_command_args_list args = finishDone st := by
    simp [parse_command_args_list, hdone, finishScan]
  refine ⟨fun hi => by simp [hp, finishDone, hi],
    fun inf hi ho => by simp [hp, finishDone, hi, ho], fun l hl => ?_⟩
  rw [hp] at hl
  cases hi : st.input_file with
  | none => simp [finishDone, hi] at hl
  | some inf =>
    cases ho : st.output_file with
    | none => simp [finishDone, hi, ho] at hl
    | some outf =>
      refine ⟨by simp [hi], by simp [ho], ?_⟩
      simp only [finishDone, hi, ho] at hl
      split at hl
      · simpa using hl.symm
      · simp at hl

theorem parse_endOfArgs (args : List Arg)
    (h : scanArgs args initState = .endOfArgs) :
    parse_command_args_list args = .error .unexpectedEndOfArgs := by
  simp [parse_command_args_list, h, finishScan]

end WasmOpt

/-! ## Claims -/

namespace WasmOpt

/-- Claim C1: the error precedence of argument translation.  An
unexpected-end-of-args abort of the scan yields `UnexpectedEndOfArgs`
regardless of everything else; a completed scan with no input file bound
yields `InputFileRequired` regardless of the unsupported list; a completed
scan with an input file but no output file yields `OutputFileRequired`
regardless of the unsupported list; and `Unsupported` is only ever returned
when both required files were bound — so the precedence is end-of-args
error, then missing-input error, then missing-output error, then the
unsupported-arguments error. -/
theorem C1_error_precedence (args : List Arg) :
    (scanArgs args initState = .endOfArgs →
      parse_command_args_list args = .error .unexpectedEndOfArgs) ∧
    ∀ st, scanArgs args initState = .done st →
      (st.input_file = none →
        parse_command_args_list args = .error .inputFileRequired) ∧
      (∀ inf, st.input_file = some inf → st.output_file = none →
        parse_command_args_list args = .error .outputFileRequired) ∧
      (∀ l, parse_command_args_list args = .error (.unsupported l) →
        st.input_file ≠ none ∧ st.output_file ≠ none ∧ l = st.unsupported) :=
  ⟨fun h => parse_endOfArgs args h, fun st h => parse_done_cases args st h⟩

theorem C1_error_precedence_witness :
    parse_command_args_list [Arg.text "foo.wasm", Arg.text "bar.wasm"]
      = .error .outputFileRequired :=
  ((C1_error_precedence [Arg.text "foo.wasm", Arg.text "bar.wasm"]).2
    { opts := default_options, input_file := some (Arg.text "foo.wasm"),
      input_sourcemap := none, output_file := none, output_sourcemap := none,
      unsupported := [Arg.text "bar.wasm"] } (by decide)).2.1
    (Arg.text "foo.wasm") (by decide) (by decide)

/-- Claim C2, counterexample: on `["-o", "a", "-o", "b", "in"]` the
`Unsupported` error records the duplicate flag's following value `"b"`, not
the flag token `"-o"` that the claim says is appended. -/
theorem C2_counterexample :
    parse_command_args_list
        [Arg.text "-o", Arg.text "a", Arg.text "-o", Arg.text "b", Arg.text "in"]
      = .error (.unsupported [Arg.text "b"]) ∧
    Arg.text "-o" ∉ [Arg.text "b"] := by decide

/-- Claim C2 (amended): when a single-valued flag occurs again after its
slot is already bound, the first occurrence's value stays bound to the slot
and the token following the second occurrence — its would-be value, not the
flag spelling — is appended to the unsupported list; nothing overwrites the
earlier value. -/
theorem C2_duplicate_flag_first_wins (a : Arg) (slot : SlotId) (v : Arg)
    (rest : List Arg) (st : ScanState) (p : Arg)
    (hclass : classify a = .valueFlag slot)
    (hbound : slotGet slot st = some p) :
    scanArgs (a :: v :: rest) st
      = scanArgs rest { st with unsupported := st.unsupported ++ [v] } ∧
    slotGet slot { st with unsupported := st.unsupported ++ [v] } = some p := by
  constructor
  · simp [scanArgs, hclass, bindSlot, hbound]
  · cases slot <;> simpa [slotGet] using hbound

theorem C2_duplicate_flag_first_wins_witness :
    scanArgs [Arg.text "-o", Arg.text "b"]
        { initState with output_file := some (Arg.text "a") }
      = .done { initState with output_file := some (Arg.text "a"),
                               unsupported := [Arg.text "b"] } ∧
    slotGet .output
        { initState with output_file := some (Arg.text "a"),
                         unsupported := [Arg.text "b"] }
      = some (Arg.text "a") :=
  C2_duplicate_flag_first_wins (Arg.text "-o") .output (Arg.text "b") []
    { initState with output_file := some (Arg.text "a") } (Arg.text "a")
    (by decide) (by decide)

/-- Claim C3: translation of a recognized-but-not-yet-implemented flag.
The claim says the caller receives a returned error or a documented no-op
and never an unrecoverable fault; the code instead reaches a `todo!()` arm,
which panics — an unconditional abort, not a returned error.  This theorem
records what the code does at such inputs. -/
theorem C3_todo_flags_panic :
    parse_command_args_list [Arg.text "--debuginfo"] = .panic ∧
    parse_command_args_list [Arg.text "-g"] = .panic ∧
    parse_command_args_list [Arg.text "--optimize-level"] = .panic ∧
    parse_command_args_list [Arg.text "-ol"] = .panic ∧
    parse_command_args_list [Arg.text "--no-validation"] = .panic ∧
    parse_command_args_list [Arg.text "-n"] = .panic ∧
    parse_command_args_list [Arg.text "--output-source-map-url"] = .panic ∧
    parse_command_args_list [Arg.text "-osu"] = .panic ∧
    parse_command_args_list
        [Arg.text "in.wasm", Arg.text "-o", Arg.text "out.wasm", Arg.text "-g"]
      = .panic := by decide

/-- Claim C4, counterexample: `["-ism", "-o"]` ends in the value-taking
flag `-o` with no following token, yet translation returns
`InputFileRequired`, not `UnexpectedEndOfArgs` — the preceding `-ism`
consumed `-o` as its value, so the claim's "regardless of what other tokens
preceded it" fails. -/
theorem C4_counterexample :
    parse_command_args_list [Arg.text "-ism", Arg.text "-o"]
      = .error .inputFileRequired ∧
    parse_command_args_list [Arg.text "-ism", Arg.text "-o"]
      ≠ .error .unexpectedEndOfArgs := by decide

/-- Claim C4 (amended): when the scan loop dispatches a value-taking flag
as a flag (rather than it being consumed as a preceding flag's value, and
with no earlier token having aborted the scan) and no token follows it, the
scan aborts with the end-of-args outcome from any state, and this outcome
always maps to `UnexpectedEndOfArgs` — never `Unsupported` — no matter what
was accumulated before. -/
theorem C4_dangling_value_flag (s : String) (slot : SlotId)
    (hclass : classify (.text s) = .valueFlag slot) :
    (∀ st, scanArgs [.text s] st = .endOfArgs) ∧
    (∀ args, scanArgs args initState = .endOfArgs →
      parse_command_args_list args = .error .unexpectedEndOfArgs) := by
  refine ⟨fun st => by simp [scanArgs, hclass], fun args h => parse_endOfArgs args h⟩

theorem C4_dangling_value_flag_witness :
    scanArgs [Arg.text "-o"] initState = .endOfArgs ∧
    parse_command_args_list [Arg.text "in.wasm", Arg.text "-o"]
      = .error .unexpectedEndOfArgs := by
  have h := C4_dangling_value_flag "-o" .output (by decide)
  exact ⟨h.1 initState, h.2 _ (by decide)⟩

/-- Claim C5: with two (or more) positional tokens — tokens the scanner
dispatches to `parse_infile_path`, i.e. matching no recognized flag and not
consumed as a flag value — a completed scan binds the first positional as
the input file, the later positionals land in the unsupported list in the
order they occurred, and whenever the `Unsupported` error is returned its
token list is exactly that unsupported list, so the second positional
appears in it verbatim. -/
theorem C5_two_positionals (args : List Arg) (p1 p2 : Arg) (ps : List Arg)
    (hpos : positionals args = p1 :: p2 :: ps)
    (st : ScanState) (hdone : scanArgs args initState = .done st) :
    st.input_file = some p1 ∧
    (p2 :: ps).Sublist st.unsupported ∧
    ∀ l, parse_command_args_list args = .error (.unsupported l) →
      l = st.unsupported ∧ p2 ∈ l := by
  obtain ⟨h1, extra, he, hsub⟩ := scan_inv args initState st hdone
  simp only [initState] at h1 he hsub
  rw [List.nil_append] at he
  have hin : st.input_file = some p1 := by
    rw [h1]
    simp [inputAfter, hpos]
  have hun : (p2 :: ps).Sublist st.unsupported := by
    rw [he]
    simpa [posOverflow, hpos] using hsub
  refine ⟨hin, hun, fun l hl => ?_⟩
  have hleq := ((parse_done_cases args st hdone).2.2 l hl).2.2
  exact ⟨hleq, hleq ▸ hun.subset (List.mem_cons_self p2 ps)⟩

theorem C5_two_positionals_witness :
    parse_command_args_list
        [Arg.text "a.wasm", Arg.text "b.wasm", Arg.text "-o", Arg.text "out.wasm"]
      = .error (.unsupported [Arg.text "b.wasm"]) ∧
    Arg.text "b.wasm" ∈ [Arg.text "b.wasm"] := by
  have h := C5_two_positionals
    [Arg.text "a.wasm", Arg.text "b.wasm", Arg.text "-o", Arg.text "out.wasm"]
    (Arg.text "a.wasm") (Arg.text "b.wasm") [] (by decide)
    { opts := default_options, input_file := some (Arg.text "a.wasm"),
      input_sourcemap := none, output_file := some (Arg.text "out.wasm"),
      output_sourcemap := none, unsupported := [Arg.text "b.wasm"] } (by decide)
  exact ⟨by decide, (h.2.2 [Arg.text "b.wasm"] (by decide)).2⟩

/-- Claim C6: a token that is not representable as text is treated by the
scan loop only as a candidate positional: it is never matched against the
flag table (its class is `positional` whatever its bytes), the step hands
it to `parse_infile_path` — binding it as the input file when that slot is
empty and pushing it onto the unsupported list otherwise — and the step
itself never aborts the scan (no end-of-args, no panic). -/
theorem C6_non_unicode_is_positional (b : List Nat) (rest : List Arg) (st : ScanState) :
    classify (.bytes b) = .positional ∧
    scanArgs (.bytes b :: rest) st = scanArgs rest (parse_infile_path (.bytes b) st) ∧
    (st.input_file = none →
      parse_infile_path (.bytes b) st = { st with input_file := some (.bytes b) }) ∧
    (∀ p, st.input_file = some p →
      parse_infile_path (.bytes b) st
        = { st with unsupported := st.unsupported ++ [.bytes b] }) ∧
    scanArgs [.bytes b] st = .done (parse_infile_path (.bytes b) st) := by
  refine ⟨rfl, by simp [scanArgs, classify], fun h => by simp [parse_infile_path, h],
    fun p h => by simp [parse_infile_path, h], by simp [scanArgs, classify]⟩

theorem C6_non_unicode_is_positional_witness :
    parse_infile_path (Arg.bytes [255, 254]) initState
      = { initState with input_file := some (Arg.bytes [255, 254]) } :=
  (C6_non_unicode_is_positional [255, 254] [] initState).2.2.1 (by decide)

/-- Claim C7: profile application is last-wins on the fields profiles set.
Applying `-O0` then `-O3` to the default options model equals applying
`-O3` alone; in general a later profile overwrites an earlier one
field-by-field (every profile sets the optimize level, the shrink level and
the pass selection), and accordingly the scan of `-O0` followed by `-O3`
reaches the same state as the scan of `-O3` alone. -/
theorem C7_profile_last_wins :
    Profile.opt_level_3.apply_to_opts (Profile.opt_level_0.apply_to_opts default_options)
      = Profile.opt_level_3.apply_to_opts default_options ∧
    (∀ (o : OptionsModel) (p q : Profile),
      q.apply_to_opts (p.apply_to_opts o) = q.apply_to_opts o) ∧
    ∀ (rest : List Arg) (st : ScanState),
      scanArgs (.text "-O0" :: .text "-O3" :: rest) st
        = scanArgs (.text "-O3" :: rest) st :=
  ⟨rfl, fun _ _ _ => rfl, fun _ _ => rfl⟩

/-- Claim C8, counterexample: inserting `-q` immediately after `-o` changes
the result — the inserted token is consumed as the output path rather than
scanned as a flag — so the claim's "inserting ... at any position changes
nothing" fails. -/
theorem C8_counterexample :
    parse_command_args_list
        [Arg.text "-o", Arg.text "-q", Arg.text "out.wasm", Arg.text "in.wasm"]
      ≠ parse_command_args_list
        [Arg.text "-o", Arg.text "out.wasm", Arg.text "in.wasm"] := by decide

/-- Claim C8 (amended): `--quiet` and `-q` are accepted no-ops when the
scan loop dispatches them as flags: such a step leaves the scan state
completely unchanged, so removing the token from the head of the remaining
input (equivalently, inserting it at any position where the scanner
examines it as a token rather than consuming it as a preceding value-taking
flag's value) changes neither the options nor any slot nor the error
returned. -/
theorem C8_quiet_noop (s : String) (hs : s = "--quiet" ∨ s = "-q") :
    (∀ (rest : List Arg) (st : ScanState),
      scanArgs (.text s :: rest) st = scanArgs rest st) ∧
    ∀ rest : List Arg,
      parse_command_args_list (.text s :: rest) = parse_command_args_list rest := by
  have hc : classify (.text s) = .quiet := by
    rcases hs with h | h <;> subst h <;> rfl
  have hstep : ∀ (rest : List Arg) (st : ScanState),
      scanArgs (.text s :: rest) st = scanArgs rest st :=
    fun rest st => by simp [scanArgs, hc]
  exact ⟨hstep, fun rest => by
    simp only [parse_command_args_list]
    rw [hstep rest initState]⟩

theorem C8_quiet_noop_witness :
    parse_command_args_list
        [Arg.text "-q", Arg.text "in.wasm", Arg.text "-o", Arg.text "out.wasm"]
      = parse_command_args_list [Arg.text "in.wasm", Arg.text "-o", Arg.text "out.wasm"] :=
  (C8_quiet_noop "-q" (Or.inr rfl)).2 [Arg.text "in.wasm", Arg.text "-o", Arg.text "out.wasm"]

/-- Claim C9: argument translation is a deterministic function of the
argument list alone; two command descriptions with equal argument
sequences — whatever their program names, environment settings or working
directories — translate identically.  (In this embedding
`parse_command_args` is a pure function, so determinism and absence of
other inputs are captured by it depending only on the `args` field.) -/
theorem C9_args_determine_result (c1 c2 : Command) (h : c1.args = c2.args) :
    parse_command_args c1 = parse_command_args c2 := by
  simp [parse_command_args, h]

theorem C9_args_determine_result_witness :
    parse_command_args
        { program := Arg.text "wasm-opt",
          args := [Arg.text "in.wasm", Arg.text "-o", Arg.text "out.wasm"],
          envs := [("WASM_OPT_LEVEL", some "3")],
          current_dir := some (Arg.text "/tmp") }
      = parse_command_args
        { program := Arg.text "some-other-binary",
          args := [Arg.text "in.wasm", Arg.text "-o", Arg.text "out.wasm"],
          envs := [], current_dir := none } :=
  C9_args_determine_result
    { program := Arg.text "wasm-opt",
      args := [Arg.text "in.wasm", Arg.text "-o", Arg.text "out.wasm"],
      envs := [("WASM_OPT_LEVEL", some "3")],
      current_dir := some (Arg.text "/tmp") }
    { program := Arg.text "some-other-binary",
      args := [Arg.text "in.wasm", Arg.text "-o", Arg.text "out.wasm"],
      envs := [], current_dir := none }
    rfl

/-- Claim C10: a duplicate single-valued flag still consumes its following
token with lookahead one: that token is appended to the unsupported list
(it is the value, not the flag spelling, that is recorded), the scan
resumes after it so it is never reconsidered as a positional (it is not a
positional candidate of the list), the step leaves the input-file slot
untouched, and concretely a value following a duplicate `-ism` never
becomes the input file even though the input slot is still empty — the scan
ends in `InputFileRequired`. -/
theorem C10_duplicate_value_not_positional (a : Arg) (slot : SlotId) (v : Arg)
    (rest : List Arg) (st : ScanState) (p : Arg)
    (hclass : classify a = .valueFlag slot)
    (hbound : slotGet slot st = some p) :
    scanArgs (a :: v :: rest) st
      = scanArgs rest { st with unsupported := st.unsupported ++ [v] } ∧
    ({ st with unsupported := st.unsupported ++ [v] } : ScanState).input_file
      = st.input_file ∧
    positionals (a :: v :: rest) = positionals rest ∧
    parse_command_args_list
        [Arg.text "-ism", Arg.text "a.map", Arg.text "-ism", Arg.text "b.map",
         Arg.text "-o", Arg.text "out.wasm"]
      = .error .inputFileRequired := by
  refine ⟨by simp [scanArgs, hclass, bindSlot, hbound], rfl,
    positionals_valueFlag a v rest slot hclass, by decide⟩

theorem C10_duplicate_value_not_positional_witness :
    scanArgs [Arg.text "-ism", Arg.text "b.map", Arg.text "-o", Arg.text "out.wasm"]
        { initState with input_sourcemap := some (Arg.text "a.map") }
      = scanArgs [Arg.text "-o", Arg.text "out.wasm"]
        { initState with input_sourcemap := some (Arg.text "a.map"),
                         unsupported := [Arg.text "b.map"] } :=
  (C10_duplicate_value_not_positional (Arg.text "-ism") .ism (Arg.text "b.map")
    [Arg.text "-o", Arg.text "out.wasm"]
    { initState with input_sourcemap := some (Arg.text "a.map") }
    (Arg.text "a.map") (by decide) (by decide)).1

end WasmOpt
